import Mathlib

/-!
# AuraCycle cycle statistics and prediction engine — shallow embedding

A shallow embedding of `src/lib/cycleStats.js`, the pure cycle statistics
and prediction engine of the AuraCycle application, together with proofs of
the specified properties.

Modelling conventions:

* Calendar dates are modelled as integer day numbers (`ℤ`).  All dates in
  the source are day-granular `YYYY-MM-DD` strings parsed with `parseISO`,
  so `differenceInDays a b` is exactly the difference of the two day
  numbers.
* JavaScript numbers are modelled as exact rationals (`ℚ`).  `Math.round`
  rounds half toward `+∞`, i.e. `Math.round x = ⌊x + 1/2⌋`.
* `Math.sqrt` followed by `Math.round (· * 10) / 10` is computed exactly
  over `ℚ` via `Nat.sqrt` (see `round10sqrt`); where the source compares an
  unrounded `Math.sqrt variance` against a constant `c ≥ 0`, the embedding
  uses the equivalent exact comparison `variance > c ^ 2`.
* Missing / `null` / `undefined` values are modelled with `Option`;
  JavaScript `x || y` on numbers treats `0` as falsy, captured by `jsOr`.
* The source reads the wall clock (`new Date()`) inside `getLateStatus` and
  `getFertileWindow`; the embedding passes that value as an explicit
  `today : ℤ` parameter.
-/

namespace AuraCycle

/-- JavaScript `Math.round`: round half toward `+∞`, i.e. `⌊q + 1/2⌋`. -/
def jsRound (q : ℚ) : ℤ := ⌊q + 1/2⌋

/-- `Math.round (q * 10) / 10`: round to one decimal place. -/
def round10 (q : ℚ) : ℚ := (jsRound (q * 10) : ℚ) / 10

/-- `Math.round (Math.sqrt q * 10) / 10`, computed exactly over `ℚ`.

For `q = a / b ≥ 0` (with `b = q.den > 0`):
`⌊√q · 10 + 1/2⌋ = ⌊(⌊20·√q⌋ + 1) / 2⌋` and
`⌊20·√q⌋ = ⌊√(400·a/b)⌋ = ⌊√(400·a·b) / b⌋ = Nat.sqrt (400·a·b) / b`. -/
def round10sqrt (q : ℚ) : ℚ :=
  let a : ℕ := q.num.toNat
  let b : ℕ := q.den
  let t : ℕ := Nat.sqrt (400 * a * b) / b
  (((t + 1) / 2 : ℕ) : ℚ) / 10

/-- JavaScript `x || y` for an optional number `x`: `0` and `null` are falsy. -/
def jsOr (x : Option ℚ) (y : ℚ) : ℚ :=
  match x with
  | some v => if v = 0 then y else v
  | none => y

-- ─── DATA MODEL ───────────────────────────────────────────────

/-- One user-recorded event for a calendar date (row of `cycle_logs`).
Only the fields read by the engine are modelled.  `date = none` models a
missing/unparseable date (falsy in the source's `l.date` check). -/
structure LogEntry where
  log_type : String
  date : Option ℤ
  symptoms : List String
  flow_intensity : Option String
deriving DecidableEq, Repr

/-- Per-user settings row (`cycle_settings`); only engine-read fields. -/
structure CycleSettings where
  average_cycle_length : Option ℚ
  last_period_start : Option ℤ
deriving DecidableEq, Repr

/-- Day number of a period log.  Only applied to entries that passed the
`l.date` filter, so the `none` default is never reached there. -/
def dateOf (l : LogEntry) : ℤ := l.date.getD 0

/-- A derived cycle record, as returned by `buildCycles`.  The source's
string fields `start`/`end` duplicate `startObj`/`endObj` as `YYYY-MM-DD`
strings and are omitted from the day-number model. -/
structure Cycle where
  index : ℕ
  startObj : ℤ
  endObj : ℤ
  periodLength : ℤ
  cycleLength : Option ℤ
  avgFlow : List String
  logs : List LogEntry
deriving DecidableEq, Repr

-- ─── CYCLE GROUPING (buildCycles) ─────────────────────────────

/-- Stable insertion of a log into a date-sorted list: a later-arriving
entry is placed after entries with the same date, matching the stable
JavaScript `sort((a, b) => a.dateObj - b.dateObj)`. -/
def insertLog (a : LogEntry) : List LogEntry → List LogEntry
  | [] => [a]
  | b :: bs => if dateOf b ≤ dateOf a then b :: insertLog a bs else a :: b :: bs

/-- Stable sort by ascending date (insertion sort).  A stable sort under a
consistent comparator has a unique result, so this is observationally the
source's `Array.prototype.sort` by `dateObj`. -/
def sortLogs (l : List LogEntry) : List LogEntry :=
  l.foldl (fun acc a => insertLog a acc) []

/-- `logs.filter(l => l.log_type === "period" && l.date).sort(by date)`. -/
def periodSorted (logs : List LogEntry) : List LogEntry :=
  sortLogs (logs.filter (fun l => l.log_type = "period" ∧ l.date.isSome))

/-- The grouping loop of `buildCycles`: `current` holds the group being
built (in reverse push order), `prev` is `periodLogs[i-1]`.  A gap of at
most 2 days pushes onto the current group; a larger gap closes it. -/
def groupLoop (current : List LogEntry) (prev : LogEntry) :
    List LogEntry → List (List LogEntry)
  | [] => [current.reverse]
  | y :: rest =>
    if dateOf y - dateOf prev ≤ 2 then groupLoop (y :: current) y rest
    else current.reverse :: groupLoop [y] y rest

/-- Groups the (sorted) period logs into runs separated by gaps > 2 days. -/
def buildGroups : List LogEntry → List (List LogEntry)
  | [] => []
  | x :: xs => groupLoop [x] x xs

/-- Structural formulation of the same grouping, used for proofs:
the list is split exactly between adjacent entries more than 2 days
apart (`buildGroups_eq_chunk`). -/
def chunk : List LogEntry → List (List LogEntry)
  | [] => []
  | [x] => [[x]]
  | x :: y :: rest =>
    match chunk (y :: rest) with
    | [] => [[x]]
    | g :: gs =>
      if dateOf y - dateOf x ≤ 2 then (x :: g) :: gs else [x] :: g :: gs

/-- `groups.map((group, i) => ...)`: emits one `Cycle` per group, reading
the next group's first entry for `cycleLength`.  The `[]` group case is
unreachable (`buildGroups` only produces nonempty groups). -/
def mkCycles (i : ℕ) : List (List LogEntry) → List Cycle
  | [] => []
  | g :: gs =>
    match g with
    | [] => mkCycles (i + 1) gs
    | x :: xs =>
      let lastE := (xs.getLast?).getD x
      let s := dateOf x
      let e := dateOf lastE
      { index := i + 1
        startObj := s
        endObj := e
        periodLength := e - s + 1
        cycleLength := (gs.head?.bind List.head?).map (fun nxt => dateOf nxt - s)
        avgFlow := (x :: xs).filterMap (fun d =>
          match d.flow_intensity with
          | some f => if f = "" then none else some f
          | none => none)
        logs := x :: xs } :: mkCycles (i + 1) gs

/-- `buildCycles`: groups period logs into discrete cycles. -/
def buildCycles (logs : List LogEntry) : List Cycle :=
  mkCycles 0 (buildGroups (periodSorted logs))

-- ─── CYCLE STATISTICS (computeCycleStats) ─────────────────────

/-- Summary statistics over completed cycles. -/
structure CycleStats where
  avg : Option ℚ
  variance : Option ℚ
  stdDev : Option ℚ
  last3 : List ℤ
  min : Option ℤ
  max : Option ℤ
  count : ℕ
deriving DecidableEq, Repr

/-- The lengths of the completed cycles (those with non-null
`cycleLength`), in order. -/
def completedLengths (cycles : List Cycle) : List ℤ :=
  (cycles.filter (fun c => c.cycleLength.isSome)).filterMap (fun c => c.cycleLength)

/-- `computeCycleStats`: population mean/variance/stdDev over completed
cycle lengths, each rounded to one decimal; `stdDev` is
`Math.round (Math.sqrt variance * 10) / 10` (see `round10sqrt`). -/
def computeCycleStats (cycles : List Cycle) : CycleStats :=
  match completedLengths cycles with
  | [] => { avg := none, variance := none, stdDev := none, last3 := [],
            min := none, max := none, count := 0 }
  | l :: ls =>
    let lengths := l :: ls
    let n : ℚ := lengths.length
    let avg : ℚ := ((lengths.map (fun x => (x : ℚ))).sum) / n
    let variance : ℚ := ((lengths.map (fun x => ((x : ℚ) - avg) ^ 2)).sum) / n
    { avg := some (round10 avg)
      variance := some (round10 variance)
      stdDev := some (round10sqrt variance)
      last3 := lengths.drop (lengths.length - 3)
      min := some (ls.foldl Min.min l)
      max := some (ls.foldl Max.max l)
      count := lengths.length }

-- ─── PREDICTION ENGINE (predictNextPeriod) ────────────────────

/-- A prediction of the next period.  The source's `*_obj` date fields and
the `format`ted strings both render the same day numbers. -/
structure Prediction where
  predicted_date : ℤ
  range_start : ℤ
  range_end : ℤ
  confidence : String
  avg_cycle_length : ℚ
  std_dev : ℚ
  cycles_analyzed : ℕ
deriving DecidableEq, Repr

/-- The `avgLen` local of `predictNextPeriod` (source lines 99–107):
with ≥ 3 completed cycles, the weighted average over `completed.slice(-6)`
with weights `i + 1` (the indexed `reduce`), else
`stats.avg || settings?.average_cycle_length || 28`. -/
def avgLenOf (cycles : List Cycle) (settings : Option CycleSettings) : ℚ :=
  let completed := cycles.filter (fun c => c.cycleLength.isSome)
  let stats := computeCycleStats cycles
  if 3 ≤ completed.length then
    let recent := completed.drop (completed.length - 6)
    let weightSum : ℚ :=
      (((List.range recent.length).map (fun i => ((i + 1 : ℕ) : ℚ)))).sum
    let wsum : ℚ :=
      ((recent.enum).map
        (fun p => ((p.2.cycleLength.getD 0 : ℤ) : ℚ) * ((p.1 + 1 : ℕ) : ℚ))).sum
    wsum / weightSum
  else
    jsOr stats.avg (jsOr (settings.bind (fun s => s.average_cycle_length)) 28)

/-- `predictNextPeriod`: next-period forecast with a confidence band. -/
def predictNextPeriod (cycles : List Cycle) (settings : Option CycleSettings) :
    Option Prediction :=
  let completed := cycles.filter (fun c => c.cycleLength.isSome)
  if cycles.length = 0 then none
  else
    let stats := computeCycleStats cycles
    let avgLen := avgLenOf cycles settings
    let lastPeriodStart : Option ℤ :=
      (settings.bind (fun s => s.last_period_start)) <|>
        ((cycles.getLast?).map (fun c => c.startObj))
    match lastPeriodStart with
    | none => none
    | some lastStart =>
      let predictedDate := lastStart + jsRound avgLen
      let stdDev := jsOr stats.stdDev 0
      let rangeDays : ℤ := max 1 (min 7 (jsRound stdDev))
      let confidence : String :=
        if completed.length = 0 ∨ 5 < stdDev then "low"
        else if completed.length < 3 ∨ 5/2 < stdDev then "medium"
        else "high"
      some { predicted_date := predictedDate
             range_start := predictedDate - rangeDays
             range_end := predictedDate + rangeDays
             confidence := confidence
             avg_cycle_length := round10 avgLen
             std_dev := round10 stdDev
             cycles_analyzed := completed.length }

-- ─── LATE PERIOD HANDLING (getLateStatus) ─────────────────────

/-- Late-period status record. -/
structure LateStatus where
  daysLate : ℤ
  message : String
  severity : String
  emoji : String
deriving DecidableEq, Repr

/-- The message/severity/emoji tiers of `getLateStatus` for a positive
`daysLate` (source lines 155–172). -/
def lateTier (daysLate : ℤ) : LateStatus :=
  if daysLate ≤ 3 then
    { daysLate
      message := "Small variations of a few days are completely normal."
      severity := "normal", emoji := "🌿" }
  else if daysLate ≤ 7 then
    { daysLate
      message := "Cycles often shift due to stress, sleep changes, or travel. This is a common variation."
      severity := "mild", emoji := "💛" }
  else if daysLate ≤ 14 then
    { daysLate
      message := "If you're sexually active, a home pregnancy test is a good idea. Illness and major stress can also delay cycles."
      severity := "moderate", emoji := "💜" }
  else
    { daysLate
      message := "Cycles can occasionally be significantly delayed. Consider speaking with a healthcare provider if this is unusual for you."
      severity := "high", emoji := "🩺" }

/-- `getLateStatus`: the source reads `new Date()`; the embedding receives
that value as the explicit `today` day number. -/
def getLateStatus (prediction : Option Prediction)
    (settings : Option CycleSettings) (today : ℤ) : Option LateStatus :=
  match prediction, settings.bind (fun s => s.last_period_start) with
  | some pred, some _ =>
    let daysLate := today - pred.predicted_date
    if daysLate ≤ 0 then none else some (lateTier daysLate)
  | _, _ => none

-- ─── IRREGULARITY DETECTION (detectIrregularity) ──────────────

/-- Irregularity record over the last 3 completed cycles. -/
structure Irregularity where
  isIrregular : Bool
  stdDev : ℚ
  range : ℤ
  last3 : List ℤ
  message : String
deriving DecidableEq, Repr

/-- `detectIrregularity`: requires ≥ 3 completed cycles; flags
`Math.sqrt variance > 4 || range > 8`, embedded exactly as
`variance > 16 ∨ range > 8` (both sides nonnegative). -/
def detectIrregularity (cycles : List Cycle) : Option Irregularity :=
  let lengths := completedLengths cycles
  if lengths.length < 3 then none
  else
    match lengths.drop (lengths.length - 3) with
    | [] => none
    | l :: ls =>
      let last3 := l :: ls
      let n : ℚ := last3.length
      let avg : ℚ := ((last3.map (fun x => (x : ℚ))).sum) / n
      let variance : ℚ := ((last3.map (fun x => ((x : ℚ) - avg) ^ 2)).sum) / n
      let range : ℤ := (ls.foldl Max.max l) - (ls.foldl Min.min l)
      let isIrregular : Bool := decide (16 < variance ∨ 8 < range)
      some { isIrregular
             stdDev := round10sqrt variance
             range
             last3
             message :=
               if isIrregular then
                 s!"Your last 3 cycles varied by {range} days — more than the typical range."
               else
                 s!"Your last 3 cycles have a {range}-day spread, which is within a normal range." }

-- ─── SYMPTOM TIMING PATTERNS (computeSymptomPatterns) ─────────

/-- Per-symptom timing pattern. -/
structure SymptomPattern where
  symptom : String
  rawSymptom : String
  avgDay : ℤ
  typicalRange : String
  count : ℕ
  allDays : List ℤ
  spread : ℤ
deriving DecidableEq, Repr

/-- The cycle-matching loop: a log date belongs to `cycles[i]` if it is
`≥ cycles[i].startObj` and either below `cycles[i+1].startObj` or there is
no later cycle. -/
def findCycle (logDate : ℤ) : List Cycle → Option Cycle
  | [] => none
  | c :: rest =>
    match rest.head? with
    | some nxt =>
      if c.startObj ≤ logDate ∧ logDate < nxt.startObj then some c
      else findCycle logDate rest
    | none => if c.startObj ≤ logDate then some c else none

/-- All `(symptom, cycleDay)` pushes performed by the `logs.forEach` loop,
in order.  A log with no symptoms, no date, no matching cycle, or a cycle
day outside `[1, 40]` contributes nothing. -/
def symptomPairs (logs : List LogEntry) (cycles : List Cycle) :
    List (String × ℤ) :=
  logs.flatMap (fun log =>
    match log.date with
    | none => []
    | some d =>
      match findCycle d cycles with
      | none => []
      | some c =>
        let cycleDay := d - c.startObj + 1
        if cycleDay < 1 ∨ 40 < cycleDay then []
        else log.symptoms.map (fun s => (s, cycleDay)))

/-- The array `symptomDays[s]` after the loop: all pushes whose key equals
`s` exactly (JavaScript object keys are full strings). -/
def daysFor (logs : List LogEntry) (cycles : List Cycle) (s : String) : List ℤ :=
  (symptomPairs logs cycles).filterMap
    (fun p => if p.1 = s then some p.2 else none)

/-- The keys of `symptomDays` in insertion order (`Object.entries` order
for string keys). -/
def symptomKeys (logs : List LogEntry) (cycles : List Cycle) : List String :=
  ((symptomPairs logs cycles).map Prod.fst).dedup

/-- Builds one output pattern from a symptom key and its day list. -/
def mkPattern (s : String) (days : List ℤ) : SymptomPattern :=
  let n : ℚ := days.length
  let avg : ℚ := ((days.map (fun d => (d : ℚ))).sum) / n
  let typical := days.filter (fun (d : ℤ) => |(d : ℚ) - avg| ≤ 2)
  let typMin : ℤ :=
    match typical with
    | [] => jsRound avg
    | t :: ts => ts.foldl Min.min t
  let typMax : ℤ :=
    match typical with
    | [] => jsRound avg
    | t :: ts => ts.foldl Max.max t
  { symptom := s.replace "_" " "
    rawSymptom := s
    avgDay := jsRound avg
    typicalRange :=
      if typMin = typMax then s!"day {typMin}" else s!"days {typMin}–{typMax}"
    count := days.length
    allDays := days
    spread :=
      match days with
      | [] => 0
      | d :: ds => (ds.foldl Max.max d) - (ds.foldl Min.min d) }

/-- Stable insertion of a pattern into a list sorted by descending count:
a later-arriving pattern goes after patterns with the same count, matching
the stable JavaScript `sort((a, b) => b.count - a.count)`. -/
def insertPattern (a : SymptomPattern) : List SymptomPattern → List SymptomPattern
  | [] => [a]
  | b :: bs => if a.count ≤ b.count then b :: insertPattern a bs else a :: b :: bs

/-- Stable sort by descending count (insertion sort); observationally the
source's stable `Array.prototype.sort`. -/
def sortPatterns (l : List SymptomPattern) : List SymptomPattern :=
  l.foldl (fun acc a => insertPattern a acc) []

/-- `computeSymptomPatterns`: groups cycle-day occurrences by the full
symptom string, keeps the symptoms with ≥ 2 occurrences and sorts by
descending count. -/
def computeSymptomPatterns (logs : List LogEntry) (cycles : List Cycle) :
    List SymptomPattern :=
  if cycles.length = 0 then []
  else
    sortPatterns
      (((symptomKeys logs cycles).filter
          (fun s => 2 ≤ (daysFor logs cycles s).length)).map
        (fun s => mkPattern s (daysFor logs cycles s)))

-- ─── FERTILE WINDOW (getFertileWindow) ────────────────────────

/-- Fertile-window record.  The three `*Formatted` fields of the source
render `start`/`end`/`ovulation` as `MMM d` strings and are omitted from
the day-number model. -/
structure FertileWindow where
  start : ℤ
  «end» : ℤ
  ovulation : ℤ
  isActive : Bool
  daysUntilStart : ℤ
  daysUntilEnd : ℤ
deriving DecidableEq, Repr

/-- `getFertileWindow`: the source reads `new Date()` for `isActive` and
the `daysUntil*` fields; the embedding receives it as `today`. -/
def getFertileWindow (lastPeriodStart : Option ℤ) (avgCycleLength : ℚ)
    (today : ℤ) : Option FertileWindow :=
  match lastPeriodStart with
  | none => none
  | some start =>
    let ovulationDayOffset := jsRound (avgCycleLength / 2) - 2
    let ovulation := start + ovulationDayOffset
    let fertileStart := ovulation - 2
    let fertileEnd := ovulation + 2
    some { start := fertileStart
           «end» := fertileEnd
           ovulation := ovulation
           isActive := decide (fertileStart ≤ today ∧ today ≤ fertileEnd)
           daysUntilStart := fertileStart - today
           daysUntilEnd := fertileEnd - today }

-- ─── SPEC-SIDE DEFINITIONS ────────────────────────────────────

/-- Modelled from the spec's words (for the C2 refinement): the weighted
sum "weight `i+1` for the *i*-th cycle in that recent window (oldest =
weight 1)", peeling the window from its oldest element with weight `w`. -/
def wSum (w : ℚ) : List ℚ → ℚ
  | [] => 0
  | x :: xs => w * x + wSum (w + 1) xs

/-- Modelled from the spec's words: the total of those weights. -/
def wTot (w : ℚ) : List ℚ → ℚ
  | [] => 0
  | _ :: xs => w + wTot (w + 1) xs

/-- Modelled from the spec's words: the "linearly-weighted average of the
most recent up to 6 completed cycles" over the given window. -/
def specWeightedAvg (xs : List ℚ) : ℚ := wSum 1 xs / wTot 1 xs

-- ─── CONCRETE INPUTS FOR WITNESSES ────────────────────────────

/-- A period log on day `d`. -/
def pLog (d : ℤ) : LogEntry :=
  { log_type := "period", date := some d, symptoms := [], flow_intensity := none }

/-- A symptom log on day `d`. -/
def sLog (d : ℤ) (ss : List String) : LogEntry :=
  { log_type := "symptom", date := some d, symptoms := ss, flow_intensity := none }

/-- Demo history: one three-day period, then single-day periods 30, 58 and
86 days after the first start (three completed cycles). -/
def demoLogs : List LogEntry := [pLog 0, pLog 1, pLog 2, pLog 30, pLog 58, pLog 86]

/-- Failing input for the symptom-grouping claim: `"cramps"` and
`"cramps:3"` logged on two days of a single tracked cycle. -/
def c4logs : List LogEntry := [pLog 0, sLog 1 ["cramps"], sLog 2 ["cramps:3"]]

/-- A prediction record for the clock-dependence counterexample. -/
def p9 : Prediction :=
  { predicted_date := 10, range_start := 9, range_end := 11, confidence := "low",
    avg_cycle_length := 28, std_dev := 0, cycles_analyzed := 0 }

/-- Settings with a declared last period start. -/
def s9 : CycleSettings := { average_cycle_length := some 28, last_period_start := some 0 }

/-- The first cycle derived from `demoLogs`. -/
def c10cycle : Cycle :=
  { index := 1, startObj := 0, endObj := 2, periodLength := 3,
    cycleLength := some 30, avgFlow := [], logs := [pLog 0, pLog 1, pLog 2] }

/-- The prediction for a single period logged on day 0 with settings `s9`
(no completed cycle: 28-day fallback, ±1-day band, low confidence). -/
def pA : Prediction :=
  { predicted_date := 28, range_start := 27, range_end := 29, confidence := "low",
    avg_cycle_length := 28, std_dev := 0, cycles_analyzed := 0 }

/-- The fertile window for anchor day 0 and a 28-day average, seen from
day 10. -/
def fw7 : FertileWindow :=
  { start := 10, «end» := 14, ovulation := 12, isActive := true,
    daysUntilStart := 0, daysUntilEnd := 4 }

-- ─── HELPER LEMMAS: GROUPING ──────────────────────────────────

theorem chunk_cons_form (x : LogEntry) (xs : List LogEntry) :
    ∃ t gs, chunk (x :: xs) = (x :: t) :: gs := by
  induction xs generalizing x with
  | nil => exact ⟨[], [], rfl⟩
  | cons y rest ih =>
    obtain ⟨t, gs, h⟩ := ih y
    by_cases hg : dateOf y - dateOf x ≤ 2
    · exact ⟨y :: t, gs, by simp [chunk, h, hg]⟩
    · exact ⟨[], (y :: t) :: gs, by simp [chunk, h, hg]⟩

theorem groupLoop_eq (rest : List LogEntry) :
    ∀ (prev : LogEntry) (t : List LogEntry) (gs : List (List LogEntry)),
      chunk (prev :: rest) = (prev :: t) :: gs →
      ∀ current : List LogEntry,
        groupLoop current prev rest = (current.reverse ++ t) :: gs := by
  induction rest with
  | nil =>
    intro prev t gs h current
    rw [show chunk [prev] = [[prev]] from rfl] at h
    injection h with h1 h2
    injection h1 with _ h3
    subst h2
    rw [← h3]
    simp [groupLoop]
  | cons y r ih =>
    intro prev t gs h current
    obtain ⟨t', gs', hc⟩ := chunk_cons_form y r
    by_cases hg : dateOf y - dateOf prev ≤ 2
    · rw [show chunk (prev :: y :: r) = (prev :: y :: t') :: gs' from by
        simp [chunk, hc, hg]] at h
      injection h with h1 h2
      injection h1 with _ h3
      subst h2
      rw [← h3]
      rw [show groupLoop current prev (y :: r) = groupLoop (y :: current) y r from by
        simp [groupLoop, hg]]
      rw [ih y t' gs' hc (y :: current)]
      simp
    · rw [show chunk (prev :: y :: r) = [prev] :: (y :: t') :: gs' from by
        simp [chunk, hc, hg]] at h
      injection h with h1 h2
      injection h1 with _ h3
      subst h2
      rw [← h3]
      rw [show groupLoop current prev (y :: r) = current.reverse :: groupLoop [y] y r from by
        simp [groupLoop, hg]]
      rw [ih y t' gs' hc [y]]
      simp

theorem buildGroups_eq_chunk : ∀ l : List LogEntry, buildGroups l = chunk l := by
  intro l
  cases l with
  | nil => rfl
  | cons x xs =>
    obtain ⟨t, gs, hc⟩ := chunk_cons_form x xs
    rw [hc]
    show groupLoop [x] x xs = (x :: t) :: gs
    rw [groupLoop_eq xs x t gs hc [x]]
    rfl

theorem chunk_flatten : ∀ l : List LogEntry, (chunk l).flatten = l := by
  intro l
  induction l with
  | nil => rfl
  | cons x xs ih =>
    cases xs with
    | nil => rfl
    | cons y rest =>
      obtain ⟨t, gs, hc⟩ := chunk_cons_form y rest
      rw [hc] at ih
      by_cases hg : dateOf y - dateOf x ≤ 2
      · rw [show chunk (x :: y :: rest) = (x :: y :: t) :: gs from by simp [chunk, hc, hg]]
        simp only [List.flatten_cons, List.cons_append] at ih ⊢
        rw [ih]
      · rw [show chunk (x :: y :: rest) = [x] :: (y :: t) :: gs from by simp [chunk, hc, hg]]
        simp only [List.flatten_cons, List.cons_append, List.nil_append] at ih ⊢
        rw [ih]

theorem chunk_within : ∀ l : List LogEntry, ∀ g ∈ chunk l,
    g.Chain' (fun a b => dateOf b - dateOf a ≤ 2) := by
  intro l
  induction l with
  | nil => intro g hg; simp [chunk] at hg
  | cons x xs ih =>
    cases xs with
    | nil =>
      intro g hg
      rw [show chunk [x] = [[x]] from rfl] at hg
      simp at hg
      subst hg
      simp
    | cons y rest =>
      obtain ⟨t, gs, hc⟩ := chunk_cons_form y rest
      rw [hc] at ih
      by_cases hg : dateOf y - dateOf x ≤ 2
      · rw [show chunk (x :: y :: rest) = (x :: y :: t) :: gs from by simp [chunk, hc, hg]]
        intro g hgm
        rcases List.mem_cons.mp hgm with h | h
        · subst h
          exact List.chain'_cons.mpr ⟨hg, ih (y :: t) (List.mem_cons_self _ _)⟩
        · exact ih g (List.mem_cons_of_mem _ h)
      · rw [show chunk (x :: y :: rest) = [x] :: (y :: t) :: gs from by simp [chunk, hc, hg]]
        intro g hgm
        rcases List.mem_cons.mp hgm with h | h
        · subst h; simp
        · exact ih g h

theorem chunk_boundary : ∀ l : List LogEntry,
    (chunk l).Chain'
      (fun g g' => ∀ a ∈ g.getLast?, ∀ b ∈ g'.head?, 3 ≤ dateOf b - dateOf a) := by
  intro l
  induction l with
  | nil => simp [chunk]
  | cons x xs ih =>
    cases xs with
    | nil => rw [show chunk [x] = [[x]] from rfl]; simp
    | cons y rest =>
      obtain ⟨t, gs, hc⟩ := chunk_cons_form y rest
      rw [hc] at ih
      by_cases hg : dateOf y - dateOf x ≤ 2
      · rw [show chunk (x :: y :: rest) = (x :: y :: t) :: gs from by simp [chunk, hc, hg]]
        cases gs with
        | nil => simp
        | cons g2 gs' =>
          have h12 := (List.chain'_cons.mp ih).1
          refine List.chain'_cons.mpr ⟨?_, (List.chain'_cons.mp ih).2⟩
          intro a ha b hb
          rw [List.getLast?_cons_cons] at ha
          exact h12 a ha b hb
      · rw [show chunk (x :: y :: rest) = [x] :: (y :: t) :: gs from by simp [chunk, hc, hg]]
        refine List.chain'_cons.mpr ⟨?_, ih⟩
        intro a ha b hb
        simp at ha hb
        subst ha; subst hb
        omega

theorem chunk_sortedHL : ∀ l : List LogEntry,
    l.Chain' (fun u v => dateOf u ≤ dateOf v) →
    ∀ g ∈ chunk l, ∀ a ∈ g.head?, ∀ b ∈ g.getLast?, dateOf a ≤ dateOf b := by
  intro l
  induction l with
  | nil => intro _ g hg; simp [chunk] at hg
  | cons x xs ih =>
    cases xs with
    | nil =>
      intro _ g hg
      rw [show chunk [x] = [[x]] from rfl] at hg
      simp at hg
      subst hg
      intro a ha b hb
      simp at ha hb
      subst ha; subst hb
      exact le_refl _
    | cons y rest =>
      intro hchain
      have hxy : dateOf x ≤ dateOf y := (List.chain'_cons.mp hchain).1
      have htail := (List.chain'_cons.mp hchain).2
      obtain ⟨t, gs, hc⟩ := chunk_cons_form y rest
      have ih' := ih htail
      rw [hc] at ih'
      by_cases hg : dateOf y - dateOf x ≤ 2
      · rw [show chunk (x :: y :: rest) = (x :: y :: t) :: gs from by simp [chunk, hc, hg]]
        intro g hgm
        rcases List.mem_cons.mp hgm with h | h
        · subst h
          intro a ha b hb
          simp at ha
          subst ha
          rw [List.getLast?_cons_cons] at hb
          have hyb := ih' (y :: t) (List.mem_cons_self _ _) y (by simp) b hb
          omega
        · exact ih' g (List.mem_cons_of_mem _ h)
      · rw [show chunk (x :: y :: rest) = [x] :: (y :: t) :: gs from by simp [chunk, hc, hg]]
        intro g hgm
        rcases List.mem_cons.mp hgm with h | h
        · subst h
          intro a ha b hb
          simp at ha hb
          subst ha; subst hb
          exact le_refl _
        · exact ih' g h

-- ─── HELPER LEMMAS: SORTING ───────────────────────────────────

theorem insertLog_head (a : LogEntry) (l : List LogEntry) :
    (insertLog a l).head? = some a ∨ (insertLog a l).head? = l.head? := by
  cases l with
  | nil => left; rfl
  | cons b bs =>
    by_cases h : dateOf b ≤ dateOf a
    · right; simp [insertLog, h]
    · left; simp [insertLog, h]

theorem insertLog_chain (a : LogEntry) : ∀ l : List LogEntry,
    l.Chain' (fun u v => dateOf u ≤ dateOf v) →
    (insertLog a l).Chain' (fun u v => dateOf u ≤ dateOf v) := by
  intro l
  induction l with
  | nil => intro _; simp [insertLog]
  | cons b bs ih =>
    intro h
    rw [List.chain'_cons'] at h
    obtain ⟨hhead, htail⟩ := h
    by_cases hba : dateOf b ≤ dateOf a
    · rw [show insertLog a (b :: bs) = b :: insertLog a bs from by simp [insertLog, hba]]
      rw [List.chain'_cons']
      refine ⟨?_, ih htail⟩
      intro y hy
      rcases insertLog_head a bs with hh | hh
      · rw [hh] at hy; simp at hy; subst hy; exact hba
      · rw [hh] at hy; exact hhead y hy
    · rw [show insertLog a (b :: bs) = a :: b :: bs from by simp [insertLog, hba]]
      rw [List.chain'_cons]
      exact ⟨by omega, List.chain'_cons'.mpr ⟨hhead, htail⟩⟩

theorem sortLogs_chain_aux : ∀ (l acc : List LogEntry),
    acc.Chain' (fun u v => dateOf u ≤ dateOf v) →
    (l.foldl (fun acc a => insertLog a acc) acc).Chain'
      (fun u v => dateOf u ≤ dateOf v) := by
  intro l
  induction l with
  | nil => intro acc h; exact h
  | cons x xs ih => intro acc h; exact ih _ (insertLog_chain x acc h)

theorem sortLogs_chain (l : List LogEntry) :
    (sortLogs l).Chain' (fun u v => dateOf u ≤ dateOf v) :=
  sortLogs_chain_aux l [] (by simp)

-- ─── HELPER LEMMAS: CYCLE RECORDS ─────────────────────────────

theorem getLast?_cons_getD (xs : List LogEntry) (x : LogEntry) :
    (x :: xs).getLast? = some ((xs.getLast?).getD x) := by
  induction xs generalizing x with
  | nil => rfl
  | cons z zs ih => simp [List.getLast?_cons_cons, ih]

theorem mkCycles_bound : ∀ (gs : List (List LogEntry)) (i : ℕ),
    (∀ g ∈ gs, ∀ a ∈ g.head?, ∀ b ∈ g.getLast?, dateOf a ≤ dateOf b) →
    gs.Chain' (fun g g' => ∀ a ∈ g.getLast?, ∀ b ∈ g'.head?, 3 ≤ dateOf b - dateOf a) →
    ∀ c ∈ mkCycles i gs, ∀ L, c.cycleLength = some L →
      c.periodLength + 2 ≤ L ∧ 1 ≤ c.periodLength := by
  intro gs
  induction gs with
  | nil => intro i _ _ c hc; simp [mkCycles] at hc
  | cons g gs' ih =>
    intro i hHL hB c hc L hL
    cases g with
    | nil =>
      rw [show mkCycles i ([] :: gs') = mkCycles (i + 1) gs' from rfl] at hc
      exact ih (i + 1) (fun g hg => hHL g (List.mem_cons_of_mem _ hg)) hB.tail c hc L hL
    | cons x xs =>
      simp only [mkCycles] at hc
      rcases List.mem_cons.mp hc with hceq | hc'
      · subst hceq
        simp only at hL
        rcases Option.map_eq_some'.mp hL with ⟨nxt, hnxt, hLval⟩
        cases gs' with
        | nil => simp at hnxt
        | cons g2 gs'' =>
          simp only [List.head?_cons, Option.some_bind] at hnxt
          cases g2 with
          | nil => simp at hnxt
          | cons n2 ns =>
            simp only [List.head?_cons] at hnxt
            injection hnxt with hnxt
            subst hnxt
            have hgap := (List.chain'_cons.mp hB).1 ((xs.getLast?).getD x)
              (by rw [getLast?_cons_getD]; rfl) n2 (by simp)
            have hhl := hHL (x :: xs) (List.mem_cons_self _ _) x (by simp)
              ((xs.getLast?).getD x) (by rw [getLast?_cons_getD]; rfl)
            simp only []
            constructor
            · omega
            · omega
      · exact ih (i + 1) (fun g hg => hHL g (List.mem_cons_of_mem _ hg))
          hB.tail c hc' L hL

-- ─── HELPER LEMMAS: WEIGHTED AVERAGE ──────────────────────────

theorem filterMap_eq_map_getD : ∀ l : List Cycle,
    (∀ c ∈ l, c.cycleLength.isSome) →
    l.filterMap (fun c => c.cycleLength) = l.map (fun c => c.cycleLength.getD 0) := by
  intro l
  induction l with
  | nil => intro _; rfl
  | cons c cs ih =>
    intro h
    have hc := h c (List.mem_cons_self _ _)
    rcases Option.isSome_iff_exists.mp hc with ⟨v, hv⟩
    simp [List.filterMap_cons, hv, ih (fun x hx => h x (List.mem_cons_of_mem _ hx))]

theorem enum_wsum : ∀ (cs : List Cycle) (k : ℕ),
    ((cs.enumFrom k).map
      (fun p => ((p.2.cycleLength.getD 0 : ℤ) : ℚ) * ((p.1 + 1 : ℕ) : ℚ))).sum =
    wSum ((k : ℚ) + 1) (cs.map (fun c => ((c.cycleLength.getD 0 : ℤ) : ℚ))) := by
  intro cs
  induction cs with
  | nil => intro k; rfl
  | cons c t ih =>
    intro k
    have iht := ih (k + 1)
    simp only [List.enumFrom, List.map_cons, List.sum_cons, List.map, wSum] at iht ⊢
    rw [iht]
    push_cast
    ring

theorem sum_range_weights : ∀ n : ℕ,
    ((List.range n).map (fun i => ((i + 1 : ℕ) : ℚ))).sum = (n * (n + 1) : ℕ) / 2 := by
  intro n
  induction n with
  | zero => simp
  | succ m ih =>
    rw [List.range_succ, List.map_append, List.sum_append]
    simp only [List.map_cons, List.map_nil, List.sum_cons, List.sum_nil]
    rw [ih]
    push_cast
    ring

theorem wTot_closed : ∀ (xs : List ℚ) (w : ℚ),
    wTot w xs = xs.length * w + (xs.length * ((xs.length : ℚ) - 1)) / 2 := by
  intro xs
  induction xs with
  | nil => intro w; simp [wTot]
  | cons x t ih =>
    intro w
    simp only [wTot, List.length_cons, ih (w + 1)]
    push_cast
    ring

theorem wSum_map_length_eq : ∀ (cs : List Cycle),
    ((cs.map (fun c => ((c.cycleLength.getD 0 : ℤ) : ℚ)))).length = cs.length := by
  intro cs; simp

-- ─── HELPER LEMMAS: PREDICTION FIELDS ─────────────────────────

theorem predict_fields (cycles : List Cycle) (settings : Option CycleSettings)
    (p : Prediction) (hp : predictNextPeriod cycles settings = some p) :
    p.confidence =
      (if (cycles.filter (fun c => c.cycleLength.isSome)).length = 0 ∨
          5 < jsOr (computeCycleStats cycles).stdDev 0 then "low"
       else if (cycles.filter (fun c => c.cycleLength.isSome)).length < 3 ∨
          5/2 < jsOr (computeCycleStats cycles).stdDev 0 then "medium"
       else "high")
    ∧ p.avg_cycle_length = round10 (avgLenOf cycles settings)
    ∧ p.std_dev = round10 (jsOr (computeCycleStats cycles).stdDev 0)
    ∧ p.cycles_analyzed = (cycles.filter (fun c => c.cycleLength.isSome)).length
    ∧ p.range_start = p.predicted_date -
        max 1 (min 7 (jsRound (jsOr (computeCycleStats cycles).stdDev 0)))
    ∧ p.range_end = p.predicted_date +
        max 1 (min 7 (jsRound (jsOr (computeCycleStats cycles).stdDev 0))) := by
  simp only [predictNextPeriod] at hp
  split at hp
  · exact absurd hp (by simp)
  · split at hp
    · exact absurd hp (by simp)
    · rw [Option.some_inj] at hp
      subst hp
      exact ⟨rfl, rfl, rfl, rfl, rfl, rfl⟩

theorem weighted_avg_eq (cs : List Cycle) :
    (((cs.enumFrom 0).map
        (fun p => ((p.2.cycleLength.getD 0 : ℤ) : ℚ) * ((p.1 + 1 : ℕ) : ℚ))).sum) /
      (((List.range cs.length).map (fun i => ((i + 1 : ℕ) : ℚ))).sum) =
    specWeightedAvg ((cs.map (fun c => c.cycleLength.getD 0)).map
        (fun x : ℤ => (x : ℚ))) := by
  unfold specWeightedAvg
  rw [enum_wsum cs 0, sum_range_weights, List.map_map]
  simp only [Function.comp_def, Nat.cast_zero, zero_add]
  congr 1
  rw [wTot_closed]
  simp only [List.length_map]
  push_cast
  ring

-- ─── CLAIM THEOREMS ───────────────────────────────────────────

/-- C1: the Cycle Builder merges consecutive period entries into the same
cycle exactly when adjacent sorted period dates are at most 2 days apart:
the produced groups partition the sorted period logs, adjacent dates
within a group differ by at most 2 days, the boundary gap between
consecutive groups is at least 3 days, and concretely a 2-day gap yields
one cycle while a 3-day gap yields two. -/
theorem cycle_grouping_boundary (logs : List LogEntry) :
    (buildGroups (periodSorted logs)).flatten = periodSorted logs
    ∧ (∀ g ∈ buildGroups (periodSorted logs),
        g.Chain' (fun a b => dateOf b - dateOf a ≤ 2))
    ∧ (buildGroups (periodSorted logs)).Chain'
        (fun g g' => ∀ a ∈ g.getLast?, ∀ b ∈ g'.head?, 3 ≤ dateOf b - dateOf a)
    ∧ (buildCycles [pLog 0, pLog 2]).length = 1
    ∧ (buildCycles [pLog 0, pLog 3]).length = 2 := by
  rw [buildGroups_eq_chunk]
  exact ⟨chunk_flatten _, chunk_within _, chunk_boundary _, by decide, by decide⟩

/-- Witness for C1: the first group of the demo history is a ≤ 2-day-gap
chain. -/
theorem cycle_grouping_boundary_witness :
    ([pLog 0, pLog 1, pLog 2] : List LogEntry).Chain'
      (fun a b => dateOf b - dateOf a ≤ 2) :=
  (cycle_grouping_boundary demoLogs).2.1 [pLog 0, pLog 1, pLog 2] (by decide)

/-- C4 (code bug, failing input): the Symptom Timing Analyzer keys
occurrences by the full symptom string, not by the part before the
`:severity` suffix: `"cramps"` and `"cramps:3"` logged once each inside a
tracked cycle form two distinct singleton groups, which the ≥ 2-occurrence
filter then discards, so no pattern at all is reported — under the claimed
prefix grouping they would form one `"cramps"` pattern with count 2. -/
theorem symptom_grouping_uses_full_string :
    (buildCycles c4logs).length = 1
    ∧ daysFor c4logs (buildCycles c4logs) "cramps" = [2]
    ∧ daysFor c4logs (buildCycles c4logs) "cramps:3" = [3]
    ∧ computeSymptomPatterns c4logs (buildCycles c4logs) = [] := by
  refine ⟨by decide, by decide, by decide, by decide⟩

/-- C7: the Fertile Window Calculator places ovulation at
`anchor + (round (avgCycleLength / 2) − 2)` days, with
`fertileStart = ovulation − 2` and `fertileEnd = ovulation + 2`, so
`fertileEnd − fertileStart = 4` for every valid input; with no anchor it
returns `null`. -/
theorem fertile_window_geometry (a : ℤ) (acl : ℚ) (today : ℤ) :
    getFertileWindow none acl today = none
    ∧ ∀ w, getFertileWindow (some a) acl today = some w →
        w.ovulation = a + (jsRound (acl / 2) - 2)
        ∧ w.start = w.ovulation - 2
        ∧ w.«end» = w.ovulation + 2
        ∧ w.«end» - w.start = 4 := by
  refine ⟨rfl, ?_⟩
  intro w hw
  simp only [getFertileWindow, Option.some_inj] at hw
  subst hw
  refine ⟨rfl, rfl, rfl, by ring⟩

/-- Witness for C7 at anchor day 0, cycle length 28, today day 10. -/
theorem fertile_window_geometry_witness :
    fw7.ovulation = 0 + (jsRound ((28 : ℚ) / 2) - 2)
    ∧ fw7.start = fw7.ovulation - 2
    ∧ fw7.«end» = fw7.ovulation + 2
    ∧ fw7.«end» - fw7.start = 4 :=
  (fertile_window_geometry 0 28 10).2 fw7 (by
    simp only [getFertileWindow, fw7, Option.some_inj, FertileWindow.mk.injEq]
    norm_num [jsRound])

/-- C8: for a log list with zero period-type entries, the Cycle Builder
returns an empty list, Cycle Statistics returns the all-null record with
count 0, and the Prediction Engine, Late-Period Classifier, Irregularity
Detector and Symptom Timing Analyzer return `none`/empty; every stage is a
total function, so none throws. -/
theorem empty_pipeline (logs : List LogEntry) (settings : Option CycleSettings)
    (today : ℤ) (h : ∀ l ∈ logs, l.log_type ≠ "period") :
    buildCycles logs = []
    ∧ computeCycleStats (buildCycles logs) =
        { avg := none, variance := none, stdDev := none, last3 := [],
          min := none, max := none, count := 0 }
    ∧ predictNextPeriod (buildCycles logs) settings = none
    ∧ getLateStatus (predictNextPeriod (buildCycles logs) settings) settings today = none
    ∧ detectIrregularity (buildCycles logs) = none
    ∧ computeSymptomPatterns logs (buildCycles logs) = [] := by
  have hfilter : logs.filter (fun l => l.log_type = "period" ∧ l.date.isSome) = [] := by
    rw [List.filter_eq_nil_iff]
    intro a ha
    simp only [decide_eq_true_eq, not_and]
    intro hp
    exact absurd hp (h a ha)
  have hbc : buildCycles logs = [] := by
    unfold buildCycles periodSorted
    rw [hfilter]
    rfl
  rw [hbc]
  refine ⟨rfl, rfl, rfl, ?_, rfl, rfl⟩
  show getLateStatus none settings today = none
  unfold getLateStatus
  cases settings.bind (fun s => s.last_period_start) <;> rfl

/-- Witness for C8: a single symptom-only log. -/
theorem empty_pipeline_witness :
    buildCycles [sLog 1 ["cramps"]] = []
    ∧ computeCycleStats (buildCycles [sLog 1 ["cramps"]]) =
        { avg := none, variance := none, stdDev := none, last3 := [],
          min := none, max := none, count := 0 }
    ∧ predictNextPeriod (buildCycles [sLog 1 ["cramps"]]) none = none
    ∧ getLateStatus (predictNextPeriod (buildCycles [sLog 1 ["cramps"]]) none) none 0 = none
    ∧ detectIrregularity (buildCycles [sLog 1 ["cramps"]]) = none
    ∧ computeSymptomPatterns [sLog 1 ["cramps"]] (buildCycles [sLog 1 ["cramps"]]) = [] :=
  empty_pipeline [sLog 1 ["cramps"]] none 0 (by decide)

/-- C9-counterexample: `getLateStatus` and `getFertileWindow` read the
wall clock (`new Date()` in the source, the explicit `today` parameter
here): with identical log/settings-derived arguments, two different
current dates give different results, so their output does depend on
something other than the `LogEntry`/`CycleSettings` inputs. -/
theorem clock_dependence :
    getLateStatus (some p9) (some s9) 11 ≠ getLateStatus (some p9) (some s9) 15
    ∧ getFertileWindow (some 0) 28 0 ≠ getFertileWindow (some 0) 28 12 := by
  refine ⟨by decide, ?_⟩
  intro h
  simp only [getFertileWindow, Option.some_inj, FertileWindow.mk.injEq] at h
  obtain ⟨-, -, -, -, h5, -⟩ := h
  linarith

/-- C9-amended: every engine function is deterministic given its arguments
together with the current date: the purely data-driven stages depend only
on the logs/cycles/settings, while `getLateStatus` and `getFertileWindow`
additionally depend on the wall-clock date, modelled as the explicit
`today` argument. -/
theorem engine_deterministic (logs₁ logs₂ : List LogEntry)
    (s₁ s₂ : Option CycleSettings) (t₁ t₂ : ℤ) (acl : ℚ)
    (hl : logs₁ = logs₂) (hs : s₁ = s₂) (ht : t₁ = t₂) :
    buildCycles logs₁ = buildCycles logs₂
    ∧ computeCycleStats (buildCycles logs₁) = computeCycleStats (buildCycles logs₂)
    ∧ predictNextPeriod (buildCycles logs₁) s₁ = predictNextPeriod (buildCycles logs₂) s₂
    ∧ getLateStatus (predictNextPeriod (buildCycles logs₁) s₁) s₁ t₁ =
        getLateStatus (predictNextPeriod (buildCycles logs₂) s₂) s₂ t₂
    ∧ detectIrregularity (buildCycles logs₁) = detectIrregularity (buildCycles logs₂)
    ∧ computeSymptomPatterns logs₁ (buildCycles logs₁) =
        computeSymptomPatterns logs₂ (buildCycles logs₂)
    ∧ getFertileWindow (s₁.bind (fun s => s.last_period_start)) acl t₁ =
        getFertileWindow (s₂.bind (fun s => s.last_period_start)) acl t₂ := by
  subst hl; subst hs; subst ht
  exact ⟨rfl, rfl, rfl, rfl, rfl, rfl, rfl⟩

/-- Witness for C9-amended at the demo history. -/
theorem engine_deterministic_witness :
    buildCycles demoLogs = buildCycles demoLogs
    ∧ computeCycleStats (buildCycles demoLogs) = computeCycleStats (buildCycles demoLogs)
    ∧ predictNextPeriod (buildCycles demoLogs) (some s9) =
        predictNextPeriod (buildCycles demoLogs) (some s9)
    ∧ getLateStatus (predictNextPeriod (buildCycles demoLogs) (some s9)) (some s9) 5 =
        getLateStatus (predictNextPeriod (buildCycles demoLogs) (some s9)) (some s9) 5
    ∧ detectIrregularity (buildCycles demoLogs) = detectIrregularity (buildCycles demoLogs)
    ∧ computeSymptomPatterns demoLogs (buildCycles demoLogs) =
        computeSymptomPatterns demoLogs (buildCycles demoLogs)
    ∧ getFertileWindow ((some s9).bind (fun s => s.last_period_start)) 28 5 =
        getFertileWindow ((some s9).bind (fun s => s.last_period_start)) 28 5 :=
  engine_deterministic demoLogs demoLogs (some s9) (some s9) 5 5 28 rfl rfl rfl

/-- C10: every cycle produced by the Cycle Builder with a known
`cycleLength` satisfies `cycleLength ≥ periodLength + 2`, hence
`cycleLength ≥ 3`: a new group only starts after a gap of more than 2
days, so the next cycle's start is at least 3 days after this cycle's
last period day. -/
theorem completed_cycle_length_bound (logs : List LogEntry) :
    ∀ c ∈ buildCycles logs, ∀ L, c.cycleLength = some L →
      c.periodLength + 2 ≤ L ∧ 3 ≤ L := by
  intro c hc L hL
  have hchain : (periodSorted logs).Chain' (fun u v => dateOf u ≤ dateOf v) :=
    sortLogs_chain _
  have hHL := chunk_sortedHL (periodSorted logs) hchain
  have hB := chunk_boundary (periodSorted logs)
  rw [show buildCycles logs = mkCycles 0 (chunk (periodSorted logs)) from by
    rw [buildCycles, buildGroups_eq_chunk]] at hc
  obtain ⟨h1, h2⟩ := mkCycles_bound (chunk (periodSorted logs)) 0 hHL hB c hc L hL
  exact ⟨h1, by omega⟩

/-- Witness for C10: the first demo cycle has period length 3 and cycle
length 30. -/
theorem completed_cycle_length_bound_witness :
    c10cycle.periodLength + 2 ≤ 30 ∧ (3 : ℤ) ≤ 30 :=
  completed_cycle_length_bound demoLogs c10cycle (by decide) 30 (by decide)

/-- C6: the Late-Period Classifier returns `null` exactly when there is no
prediction, no declared `lastPeriodStart`, or `daysLate ≤ 0`; otherwise it
returns a record with severity "normal" for 1–3 days late, "mild" for 4–7,
"moderate" for 8–14 and "high" for 15 and above, the four tiers
non-overlapping and exhaustive over positive `daysLate`. -/
theorem late_status_classification (p? : Option Prediction)
    (s : Option CycleSettings) (today : ℤ) :
    (getLateStatus p? s today = none ↔
      p? = none ∨ s.bind (fun st => st.last_period_start) = none ∨
        (∀ p, p? = some p → today - p.predicted_date ≤ 0))
    ∧ (∀ p, p? = some p → s.bind (fun st => st.last_period_start) ≠ none →
        0 < today - p.predicted_date →
        getLateStatus p? s today = some (lateTier (today - p.predicted_date)))
    ∧ (∀ d : ℤ, 0 < d →
        (lateTier d).daysLate = d
        ∧ ((lateTier d).severity = "normal" ↔ 1 ≤ d ∧ d ≤ 3)
        ∧ ((lateTier d).severity = "mild" ↔ 4 ≤ d ∧ d ≤ 7)
        ∧ ((lateTier d).severity = "moderate" ↔ 8 ≤ d ∧ d ≤ 14)
        ∧ ((lateTier d).severity = "high" ↔ 15 ≤ d)) := by
  refine ⟨?_, ?_, ?_⟩
  · cases p? with
    | none =>
      cases hb : s.bind (fun st => st.last_period_start) <;>
        simp [getLateStatus, hb]
    | some p =>
      cases hb : s.bind (fun st => st.last_period_start) with
      | none => simp [getLateStatus, hb]
      | some d =>
        by_cases hdl : today - p.predicted_date ≤ 0 <;>
          simp [getLateStatus, hb, hdl] <;> omega
  · intro p hp hbne hpos
    subst hp
    cases hb : s.bind (fun st => st.last_period_start) with
    | none => exact absurd hb hbne
    | some d =>
      have hneg : ¬(today - p.predicted_date ≤ 0) := by omega
      unfold getLateStatus
      rw [hb]
      simp [hneg]
  · intro d hd
    simp only [lateTier]
    split_ifs with h1 h2 h3 <;>
      dsimp only <;>
      refine ⟨rfl, ?_, ?_, ?_, ?_⟩ <;>
      constructor <;>
      intro hx <;>
      first
        | rfl
        | omega
        | (exact absurd hx (by decide))

/-- Witness for C6: two days late with a declared last period start. -/
theorem late_status_classification_witness :
    getLateStatus (some p9) (some s9) 12 = some (lateTier (12 - p9.predicted_date)) :=
  (late_status_classification (some p9) (some s9) 12).2.1 p9 rfl (by decide) (by decide)

/-- C3: the prediction confidence tier lets data scarcity dominate
variance: it is never "high" with fewer than 3 completed cycles; it is
"low" iff there are zero completed cycles or the (rounded) stdDev exceeds
5, "medium" iff not low and the completed count is below 3 or stdDev
exceeds 2.5, and "high" otherwise. -/
theorem prediction_confidence_tiers (cycles : List Cycle)
    (settings : Option CycleSettings) (p : Prediction)
    (hp : predictNextPeriod cycles settings = some p) :
    ((cycles.filter (fun c => c.cycleLength.isSome)).length < 3 →
      p.confidence ≠ "high")
    ∧ (p.confidence = "low" ↔
        ((cycles.filter (fun c => c.cycleLength.isSome)).length = 0 ∨
          5 < jsOr (computeCycleStats cycles).stdDev 0))
    ∧ (p.confidence = "medium" ↔
        (¬((cycles.filter (fun c => c.cycleLength.isSome)).length = 0 ∨
            5 < jsOr (computeCycleStats cycles).stdDev 0) ∧
          ((cycles.filter (fun c => c.cycleLength.isSome)).length < 3 ∨
            5/2 < jsOr (computeCycleStats cycles).stdDev 0)))
    ∧ (p.confidence = "high" ↔
        (¬((cycles.filter (fun c => c.cycleLength.isSome)).length = 0 ∨
            5 < jsOr (computeCycleStats cycles).stdDev 0) ∧
          ¬((cycles.filter (fun c => c.cycleLength.isSome)).length < 3 ∨
            5/2 < jsOr (computeCycleStats cycles).stdDev 0))) := by
  have hconf := (predict_fields cycles settings p hp).1
  rw [hconf]
  split_ifs with h1 h2
  · exact ⟨fun _ => by decide, iff_of_true rfl h1,
      iff_of_false (by decide) (fun hc => hc.1 h1),
      iff_of_false (by decide) (fun hc => hc.1 h1)⟩
  · exact ⟨fun _ => by decide, iff_of_false (by decide) h1,
      iff_of_true rfl ⟨h1, h2⟩,
      iff_of_false (by decide) (fun hc => hc.2 h2)⟩
  · exact ⟨fun hlt => absurd (Or.inl hlt) h2, iff_of_false (by decide) h1,
      iff_of_false (by decide) (fun hc => h2 hc.2),
      iff_of_true rfl ⟨h1, h2⟩⟩

/-- Witness for C3: a single cycle, no completed cycle, confidence "low". -/
theorem prediction_confidence_tiers_witness :
    (((buildCycles [pLog 0]).filter (fun c => c.cycleLength.isSome)).length < 3 →
      pA.confidence ≠ "high")
    ∧ (pA.confidence = "low" ↔
        (((buildCycles [pLog 0]).filter (fun c => c.cycleLength.isSome)).length = 0 ∨
          5 < jsOr (computeCycleStats (buildCycles [pLog 0])).stdDev 0))
    ∧ (pA.confidence = "medium" ↔
        (¬(((buildCycles [pLog 0]).filter (fun c => c.cycleLength.isSome)).length = 0 ∨
            5 < jsOr (computeCycleStats (buildCycles [pLog 0])).stdDev 0) ∧
          (((buildCycles [pLog 0]).filter (fun c => c.cycleLength.isSome)).length < 3 ∨
            5/2 < jsOr (computeCycleStats (buildCycles [pLog 0])).stdDev 0)))
    ∧ (pA.confidence = "high" ↔
        (¬(((buildCycles [pLog 0]).filter (fun c => c.cycleLength.isSome)).length = 0 ∨
            5 < jsOr (computeCycleStats (buildCycles [pLog 0])).stdDev 0) ∧
          ¬(((buildCycles [pLog 0]).filter (fun c => c.cycleLength.isSome)).length < 3 ∨
            5/2 < jsOr (computeCycleStats (buildCycles [pLog 0])).stdDev 0))) :=
  prediction_confidence_tiers (buildCycles [pLog 0]) (some s9) pA (by
    have hbc : buildCycles [pLog 0] =
        [{ index := 1, startObj := 0, endObj := 0, periodLength := 1,
           cycleLength := none, avgFlow := [], logs := [pLog 0] }] := by decide
    rw [hbc]
    simp only [predictNextPeriod, avgLenOf, computeCycleStats, completedLengths, jsOr,
      pA, s9, Option.some_inj]
    norm_num [jsRound, round10, Prediction.mk.injEq])

/-- C5: the prediction's confidence range is symmetric around
`predictedDate` with half-width exactly `max 1 (min 7 (round stdDev))`;
with a zero or unknown stdDev the band is exactly ±1 day, never a
zero-width point. -/
theorem prediction_range_symmetric (cycles : List Cycle)
    (settings : Option CycleSettings) (p : Prediction)
    (hp : predictNextPeriod cycles settings = some p) :
    p.range_start = p.predicted_date -
        max 1 (min 7 (jsRound (jsOr (computeCycleStats cycles).stdDev 0)))
    ∧ p.range_end = p.predicted_date +
        max 1 (min 7 (jsRound (jsOr (computeCycleStats cycles).stdDev 0)))
    ∧ p.predicted_date - p.range_start = p.range_end - p.predicted_date
    ∧ 1 ≤ p.range_end - p.predicted_date
    ∧ p.range_end - p.predicted_date ≤ 7
    ∧ ((computeCycleStats cycles).stdDev = none ∨
        (computeCycleStats cycles).stdDev = some 0 →
        p.range_start = p.predicted_date - 1 ∧ p.range_end = p.predicted_date + 1) := by
  obtain ⟨-, -, -, -, hrs, hre⟩ := predict_fields cycles settings p hp
  have h1w : (1 : ℤ) ≤ max 1 (min 7 (jsRound (jsOr (computeCycleStats cycles).stdDev 0))) :=
    le_max_left _ _
  have h7w : max 1 (min 7 (jsRound (jsOr (computeCycleStats cycles).stdDev 0))) ≤ 7 :=
    max_le (by norm_num) (min_le_left _ _)
  refine ⟨hrs, hre, by rw [hrs, hre]; ring, ?_, ?_, ?_⟩
  · rw [hre]; omega
  · rw [hre]; omega
  · intro h
    have hz : jsOr (computeCycleStats cycles).stdDev 0 = 0 := by
      rcases h with h | h <;> rw [h] <;> simp [jsOr]
    rw [hrs, hre, hz]
    norm_num [jsRound]

/-- Witness for C5 at a single cycle with no completed cycle. -/
theorem prediction_range_symmetric_witness :
    pA.range_start = pA.predicted_date -
        max 1 (min 7 (jsRound (jsOr (computeCycleStats (buildCycles [pLog 0])).stdDev 0)))
    ∧ pA.range_end = pA.predicted_date +
        max 1 (min 7 (jsRound (jsOr (computeCycleStats (buildCycles [pLog 0])).stdDev 0)))
    ∧ pA.predicted_date - pA.range_start = pA.range_end - pA.predicted_date
    ∧ 1 ≤ pA.range_end - pA.predicted_date
    ∧ pA.range_end - pA.predicted_date ≤ 7
    ∧ ((computeCycleStats (buildCycles [pLog 0])).stdDev = none ∨
        (computeCycleStats (buildCycles [pLog 0])).stdDev = some 0 →
        pA.range_start = pA.predicted_date - 1 ∧ pA.range_end = pA.predicted_date + 1) :=
  prediction_range_symmetric (buildCycles [pLog 0]) (some s9) pA (by
    have hbc : buildCycles [pLog 0] =
        [{ index := 1, startObj := 0, endObj := 0, periodLength := 1,
           cycleLength := none, avgFlow := [], logs := [pLog 0] }] := by decide
    rw [hbc]
    simp only [predictNextPeriod, avgLenOf, computeCycleStats, completedLengths, jsOr,
      pA, s9, Option.some_inj]
    norm_num [jsRound, round10, Prediction.mk.injEq])

/-- C2: with at least 3 completed cycles the Prediction Engine's average
length is the linearly-weighted average of the most recent up to 6
completed lengths with weight `i+1` for the `i`-th cycle of the window
(oldest weight 1); with fewer it uses the (rounded) unweighted
`CycleStats.avg` when available and nonzero, else
`settings.averageCycleLength` when present and nonzero, else 28; the
prediction reports this value rounded to one decimal. -/
theorem predict_weighted_average (cycles : List Cycle)
    (settings : Option CycleSettings) :
    (3 ≤ (cycles.filter (fun c => c.cycleLength.isSome)).length →
      avgLenOf cycles settings =
        specWeightedAvg (((completedLengths cycles).drop
          ((completedLengths cycles).length - 6)).map (fun x : ℤ => (x : ℚ))))
    ∧ ((cycles.filter (fun c => c.cycleLength.isSome)).length < 3 →
        (∀ a, (computeCycleStats cycles).avg = some a → a ≠ 0 →
          avgLenOf cycles settings = a)
        ∧ ((computeCycleStats cycles).avg = none →
            (∀ v, settings.bind (fun s => s.average_cycle_length) = some v → v ≠ 0 →
              avgLenOf cycles settings = v)
            ∧ (settings.bind (fun s => s.average_cycle_length) = none →
                avgLenOf cycles settings = 28)))
    ∧ (∀ p, predictNextPeriod cycles settings = some p →
        p.avg_cycle_length = round10 (avgLenOf cycles settings)) := by
  refine ⟨?_, ?_, fun p hp => (predict_fields cycles settings p hp).2.1⟩
  · intro h3
    have hmem : ∀ c ∈ cycles.filter (fun c => c.cycleLength.isSome),
        c.cycleLength.isSome := fun c hc => (List.mem_filter.mp hc).2
    have hfm : completedLengths cycles =
        (cycles.filter (fun c => c.cycleLength.isSome)).map
          (fun c => c.cycleLength.getD 0) := by
      unfold completedLengths
      exact filterMap_eq_map_getD _ hmem
    simp only [avgLenOf]
    rw [if_pos h3, hfm, List.length_map, ← List.map_drop,
      show ∀ l : List Cycle, l.enum = l.enumFrom 0 from fun _ => rfl]
    exact weighted_avg_eq _
  · intro hlt
    have hif : ¬(3 ≤ (cycles.filter (fun c => c.cycleLength.isSome)).length) := by
      omega
    constructor
    · intro a ha hane
      unfold avgLenOf
      rw [if_neg hif, ha]
      simp [jsOr, hane]
    · intro hnone
      constructor
      · intro v hv hvne
        unfold avgLenOf
        rw [if_neg hif, hnone, hv]
        simp [jsOr, hvne]
      · intro hnb
        unfold avgLenOf
        rw [if_neg hif, hnone, hnb]
        simp [jsOr]

/-- Witness for C2: three completed cycles of lengths 30, 28, 28 give the
weighted average (1·30 + 2·28 + 3·28)/6. -/
theorem predict_weighted_average_witness :
    avgLenOf (buildCycles demoLogs) none =
      specWeightedAvg (((completedLengths (buildCycles demoLogs)).drop
        ((completedLengths (buildCycles demoLogs)).length - 6)).map
          (fun x : ℤ => (x : ℚ))) :=
  (predict_weighted_average (buildCycles demoLogs) none).1 (by decide)

end AuraCycle
